import Mathlib

/-!
Verification development for the GDELT dashboard (`src/main.py`).

The file shallowly embeds the data-transformation logic of the program:

* `calculate_moving_average` — the centered rolling mean (`pandas`
  `Series.rolling(window, center=True).mean()` with the default
  `min_periods = window`);
* `process_timeline_data` — the per-(timeline type, keyword) fetch /
  sort / smooth / store loop;
* `generate_artical_data` — the article fetch, keyword tagging and
  `seendate` reformatting step (`datetime.strptime` / `strftime`);
* the domain/country comma-splitting rule of the search-button handler.

Timestamps are modelled as natural numbers, metric values as rationals,
and a missing (`NaN`) smoothed value as `Option.none`.
-/

/-- A row of a fetched timeline table: the `datetime` column and the one
numeric metric column the program operates on (`Average Tone`,
`Volume Intensity` or `Article Count`). -/
structure Row where
  datetime : Nat
  value : ℚ
deriving DecidableEq

/-- A row of a smoothed timeline table: the rolling mean may be undefined
(`NaN` in the program), hence `Option ℚ`. -/
structure SRow where
  datetime : Nat
  value : Option ℚ
deriving DecidableEq

/-- The rolling-window value at label `i`, following pandas'
`FixedWindowIndexer.get_window_bounds` with `center=True`: the offset is
`(W - 1) / 2`, the (half-open) window for label `i` is
`[i + 1 + offset - W, i + 1 + offset)` clipped to `[0, N)`, and with the
default `min_periods = W` the mean is defined only when the clipped
window still holds `W` points.  Subtraction is natural-number
subtraction, which performs exactly the lower clipping. -/
def windowVal (W : Nat) (vals : List ℚ) (i : Nat) : Option ℚ :=
  let offset := (W - 1) / 2
  let s := i + 1 + offset - W
  let e := min (i + 1 + offset) vals.length
  if e - s = W then some ((((vals.drop s).take (e - s)).sum) / (W : ℚ)) else none

/-- The column produced by `.rolling(window=W, center=True).mean()`. -/
def rollingCenteredMean (W : Nat) (vals : List ℚ) : List (Option ℚ) :=
  (List.range vals.length).map (windowVal W vals)

/-- `calculate_moving_average` (src/main.py lines 10-27): copies the
table and replaces the metric column by its centered rolling mean.  The
`datetime` column is untouched. -/
def calculate_moving_average (data : List Row) (window_size : Nat) : List SRow :=
  List.zipWith (fun r m => SRow.mk r.datetime m) data
    (rollingCenteredMean window_size (data.map Row.value))

/-- Ordering of timeline rows by the `datetime` column. -/
def timeLE (a b : Row) : Prop := a.datetime ≤ b.datetime

instance : DecidableRel timeLE := fun a b => Nat.decLe a.datetime b.datetime

instance : IsTotal Row timeLE := ⟨fun a b => Nat.le_total a.datetime b.datetime⟩

instance : IsTrans Row timeLE := ⟨fun _ _ _ h h2 => Nat.le_trans h h2⟩

/-- `timeline.sort_values('datetime')`: sort the table ascending by the
`datetime` column.  Realized here as a deterministic insertion sort;
pandas' default `kind='quicksort'` does not promise the relative order
of rows with tied timestamps, so every statement that is sensitive to
tie order is made through `sortContract` (sorted output that is a
permutation of the input, the whole documented guarantee) rather than
through this particular realization. -/
def sortByTime (l : List Row) : List Row := List.insertionSort timeLE l

/-- A table sorted ascending by the `datetime` column. -/
def timesSorted (l : List Row) : Prop := List.Sorted timeLE l

instance (l : List Row) : Decidable (timesSorted l) :=
  inferInstanceAs (Decidable (List.Pairwise timeLE l))

/-- One entry of the `timeline_types` list (src/main.py lines 96-98). -/
structure TimelineType where
  search_api : String
  title : String
  col_name : String
deriving DecidableEq

/-- The `timeline_types` list of the program. -/
def timeline_types : List TimelineType :=
  [TimelineType.mk "timelinetone" "Average Tone" "Average Tone",
   TimelineType.mk "timelinevol" "Volume As % Of Total" "Volume Intensity",
   TimelineType.mk "timelinevolraw" "Volume Of Total Articles" "Article Count"]

/-- Outcome of one `gd.timeline_search` call: either it raises, or it
returns a (possibly empty) table. -/
inductive FetchResult where
  | err : FetchResult
  | ok : List Row → FetchResult
deriving DecidableEq

/-- The `try/except` around `gd.timeline_search` (src/main.py lines
59-64): on error the timeline is replaced by an empty table. -/
def fetchedTimeline (fetch : String → String → FetchResult) (api kw : String) : List Row :=
  match fetch api kw with
  | FetchResult.err => []
  | FetchResult.ok rows => rows

/-- A store keyed by the `f"{search_api}:{keyword}"` string, as an
association list in insertion order. -/
abbrev RawStore := List (String × List Row)

/-- The smoothed-series store. -/
abbrev SmStore := List (String × List SRow)

/-- One iteration of the inner loop of `process_timeline_data`
(src/main.py lines 58-74): fetch (errors becoming empty tables), skip
empty results, otherwise sort by `datetime` and record the sorted series
and its 30-point centered moving average under the composite key. -/
def processStep (fetch : String → String → FetchResult) (kw : String)
    (acc : RawStore × SmStore) (tt : TimelineType) : RawStore × SmStore :=
  let timeline := fetchedTimeline fetch tt.search_api kw
  if timeline.isEmpty then acc
  else
    let sorted := sortByTime timeline
    let key := tt.search_api ++ ":" ++ kw
    (acc.1 ++ [(key, sorted)], acc.2 ++ [(key, calculate_moving_average sorted 30)])

/-- `process_timeline_data` (src/main.py lines 53-76): the keyword-major,
timeline-type-minor double loop filling the raw and smoothed stores. -/
def process_timeline_data (kws : List String) (tts : List TimelineType)
    (fetch : String → String → FetchResult) : RawStore × SmStore :=
  kws.foldl (fun acc kw => tts.foldl (processStep fetch kw) acc) ([], [])

/-- The key column of a store. -/
def storeKeys {α : Type} (s : List (String × α)) : List String := s.map Prod.fst

/-- What a single (keyword, timeline type) pair contributes to the two
stores: nothing when the fetch errored or returned an empty table, and
one keyed entry in each store otherwise. -/
def pairContrib (fetch : String → String → FetchResult) (kw : String)
    (tt : TimelineType) : RawStore × SmStore :=
  let timeline := fetchedTimeline fetch tt.search_api kw
  if timeline.isEmpty then ([], [])
  else
    let sorted := sortByTime timeline
    let key := tt.search_api ++ ":" ++ kw
    ([(key, sorted)], [(key, calculate_moving_average sorted 30)])

/-- Python's `str.split(',')` on the character list: split at every
comma, keeping empty pieces (so the empty string yields one empty
piece). -/
def splitCommaAux : List Char → List Char → List (List Char)
  | [], cur => [cur.reverse]
  | c :: rest, cur =>
      if c = ',' then cur.reverse :: splitCommaAux rest []
      else splitCommaAux rest (c :: cur)

/-- `domain.split(',')` of the search handler. -/
def pySplitComma (s : String) : List String :=
  (splitCommaAux s.toList []).map String.mk

/-- Python's `str.strip()`: drop whitespace from both ends. -/
def pyStrip (s : String) : String :=
  String.mk (((s.toList.dropWhile Char.isWhitespace).reverse.dropWhile
      Char.isWhitespace).reverse)

/-- The value the handler passes as the `domain` (or `country`) filter:
Python leaves either a single string or a list of strings in the
variable, depending on the branch taken. -/
inductive DomainsVal where
  | scalar : String → DomainsVal
  | listVal : List String → DomainsVal
deriving DecidableEq

/-- The domain-field handling of the search-button handler (src/main.py
lines 104-107): when `domain.split(',')` has exactly one piece the
trimmed whole string is kept as a scalar (or `[]` when the field is
empty), otherwise the list of trimmed pieces is kept (or `[]` when the
field is empty, a branch Python can in fact not reach). -/
def parseDomainField (domain : String) : DomainsVal :=
  if (pySplitComma domain).length = 1 then
    if domain = "" then DomainsVal.listVal [] else DomainsVal.scalar (pyStrip domain)
  else
    if domain = "" then DomainsVal.listVal []
    else DomainsVal.listVal ((pySplitComma domain).map pyStrip)

/-- The fixed pattern exactly as the specification words it: four digit
year, two digit month, two digit day, a literal (upper-case) `T`, six
digit time, a literal `Z`.  This definition follows the spec's words, to
be compared with `parseSeendate`, the embedding of what
`datetime.strptime` actually accepts: `strptime` compiles its format
with `IGNORECASE` and lets the month, day, hour, minute and second
fields be one or two digits, so it accepts many strings that this fixed
pattern rejects. -/
def matchesSeendatePat (s : String) : Bool :=
  match s.toList with
  | [y1, y2, y3, y4, m1, m2, d1, d2, tc, h1, h2, n1, n2, s1, s2, zc] =>
      y1.isDigit && y2.isDigit && y3.isDigit && y4.isDigit &&
      m1.isDigit && m2.isDigit && d1.isDigit && d2.isDigit &&
      tc = 'T' &&
      h1.isDigit && h2.isDigit && n1.isDigit && n2.isDigit &&
      s1.isDigit && s2.isDigit && zc = 'Z'
  | _ => false

/-- Numeric value of a digit character. -/
def digVal (c : Char) : Nat := c.toNat - 48

/-- The fields of a parsed `seendate`. -/
structure ParsedDate where
  year : Nat
  month : Nat
  day : Nat
  hour : Nat
  minute : Nat
  second : Nat
deriving DecidableEq

/-- Gregorian leap-year rule, as used by Python's `datetime`. -/
def isLeapYear (y : Nat) : Bool :=
  (y % 4 = 0 && y % 100 ≠ 0) || y % 400 = 0

/-- Days in a month, as validated by Python's `datetime`. -/
def daysInMonth (y m : Nat) : Nat :=
  if m = 2 then (if isLeapYear y then 29 else 28)
  else if m = 4 ∨ m = 6 ∨ m = 9 ∨ m = 11 then 30 else 31

/-- Is `c` a digit between `lo` and `hi` inclusive. -/
def isDigitIn (lo hi c : Char) : Bool := lo ≤ c && c ≤ hi

/-- A two-character regex alternative: first character satisfying `p1`,
second satisfying `p2`, read as a two-digit number. -/
def twoChars (p1 p2 : Char → Bool) : List Char → Option (Nat × List Char)
  | c1 :: c2 :: rest =>
      if p1 c1 && p2 c2 then some (10 * digVal c1 + digVal c2, rest) else none
  | _ => none

/-- A one-character regex alternative: one character satisfying `p`,
read as a one-digit number. -/
def oneChar (p : Char → Bool) : List Char → Option (Nat × List Char)
  | c :: rest => if p c then some (digVal c, rest) else none
  | _ => none

/-- The space-then-digit alternative of the day field (CPython matches
a blank followed by `[1-9]`). -/
def spaceOneChar (p : Char → Bool) : List Char → Option (Nat × List Char)
  | c0 :: c :: rest => if c0 = ' ' && p c then some (digVal c, rest) else none
  | _ => none

/-- Regex backtracking over the alternatives of one field: try each
alternative left to right; when an alternative matches locally but the
continuation `k` of the pattern fails, fall through to the next
alternative, exactly as the regex engine backtracks. -/
def tryAlts {α : Type} (cs : List Char) (k : Nat → List Char → Option α) :
    List (List Char → Option (Nat × List Char)) → Option α
  | [] => none
  | a :: rest =>
      match a cs with
      | some (v, cs2) =>
          match k v cs2 with
          | some r => some r
          | none => tryAlts cs k rest
      | none => tryAlts cs k rest

/-- CPython `_strptime` field `%m`: `1[0-2]|0[1-9]|[1-9]`. -/
def monthAlts : List (List Char → Option (Nat × List Char)) :=
  [twoChars (· = '1') (isDigitIn '0' '2'), twoChars (· = '0') (isDigitIn '1' '9'),
   oneChar (isDigitIn '1' '9')]

/-- CPython `_strptime` field `%d`: `3[01]|[12]\d|0[1-9]|[1-9]| [1-9]`. -/
def dayAlts : List (List Char → Option (Nat × List Char)) :=
  [twoChars (· = '3') (isDigitIn '0' '1'), twoChars (isDigitIn '1' '2') Char.isDigit,
   twoChars (· = '0') (isDigitIn '1' '9'), oneChar (isDigitIn '1' '9'),
   spaceOneChar (isDigitIn '1' '9')]

/-- CPython `_strptime` field `%H`: `2[0-3]|[0-1]\d|\d`. -/
def hourAlts : List (List Char → Option (Nat × List Char)) :=
  [twoChars (· = '2') (isDigitIn '0' '3'), twoChars (isDigitIn '0' '1') Char.isDigit,
   oneChar Char.isDigit]

/-- CPython `_strptime` field `%M`: `[0-5]\d|\d`. -/
def minuteAlts : List (List Char → Option (Nat × List Char)) :=
  [twoChars (isDigitIn '0' '5') Char.isDigit, oneChar Char.isDigit]

/-- CPython `_strptime` field `%S`: `6[0-1]|[0-5]\d|\d`. -/
def secondAlts : List (List Char → Option (Nat × List Char)) :=
  [twoChars (· = '6') (isDigitIn '0' '1'), twoChars (isDigitIn '0' '5') Char.isDigit,
   oneChar Char.isDigit]

/-- CPython `_strptime` field `%Y`: exactly four digits. -/
def fourDigits : List Char → Option (Nat × List Char)
  | c1 :: c2 :: c3 :: c4 :: rest =>
      if c1.isDigit && c2.isDigit && c3.isDigit && c4.isDigit then
        some (1000 * digVal c1 + 100 * digVal c2 + 10 * digVal c3 + digVal c4, rest)
      else none
  | _ => none

/-- The literal `T` of the format, matched case-insensitively because
`_strptime` compiles the format regex with `IGNORECASE`. -/
def litT : List Char → Option (List Char)
  | c :: rest => if c = 'T' || c = 't' then some rest else none
  | _ => none

/-- The literal `Z` of the format, matched case-insensitively. -/
def litZ : List Char → Option (List Char)
  | c :: rest => if c = 'Z' || c = 'z' then some rest else none
  | _ => none

/-- The regex `datetime.strptime` compiles for the format
`%Y%m%dT%H%M%SZ` (CPython `_strptime.TimeRE`): `%Y` is exactly four
digits, the other fields take the alternative lists above, the literals
`T` and `Z` are matched case-insensitively, the match is anchored at the
start of the string and must consume it entirely (`strptime` raises
`unconverted data remains` otherwise), and alternatives backtrack left
to right.  Digits are modelled as the ASCII digits. -/
def seendateRegexMatch (s : String) : Option (Nat × Nat × Nat × Nat × Nat × Nat) :=
  match fourDigits s.toList with
  | none => none
  | some (y, cs1) =>
      tryAlts cs1 (fun mo cs2 =>
        tryAlts cs2 (fun d cs3 =>
          match litT cs3 with
          | none => none
          | some cs4 =>
              tryAlts cs4 (fun h cs5 =>
                tryAlts cs5 (fun mi cs6 =>
                  tryAlts cs6 (fun sec cs7 =>
                    match litZ cs7 with
                    | some [] => some (y, mo, d, h, mi, sec)
                    | _ => none) secondAlts) minuteAlts) hourAlts) dayAlts) monthAlts

/-- `datetime.strptime(x, '%Y%m%dT%H%M%SZ')`: `none` when the call would
raise a `ValueError`, i.e. when the format regex does not match, or when
the `datetime` constructor then rejects the parsed fields (`year` below
`MINYEAR = 1`, `day` out of range for the month, or `second` above 59 —
the regex itself admits the leap seconds 60 and 61, which `datetime`
rejects; the regex already guarantees `1 <= month <= 12`, `1 <= day`,
`hour <= 23` and `minute <= 59`). -/
def parseSeendate (s : String) : Option ParsedDate :=
  match seendateRegexMatch s with
  | none => none
  | some (y, mo, d, h, mi, sec) =>
      if 1 ≤ y ∧ d ≤ daysInMonth y mo ∧ sec ≤ 59 then
        some (ParsedDate.mk y mo d h mi sec)
      else none

/-- The digit character of `n % 10`. -/
def digitOf (n : Nat) : Char :=
  match n % 10 with
  | 0 => '0' | 1 => '1' | 2 => '2' | 3 => '3' | 4 => '4'
  | 5 => '5' | 6 => '6' | 7 => '7' | 8 => '8' | _ => '9'

/-- Zero-padded two-digit rendering (`strftime` `%d`, `%H`, `%M`). -/
def pad2str (n : Nat) : String := String.mk [digitOf (n / 10), digitOf n]

/-- Zero-padded four-digit rendering (`strftime` `%Y` for our years). -/
def pad4str (n : Nat) : String :=
  String.mk [digitOf (n / 1000), digitOf (n / 100), digitOf (n / 10), digitOf n]

/-- `strftime` `%b`: the abbreviated month name. -/
def monthAbbrev : Nat → String
  | 1 => "Jan" | 2 => "Feb" | 3 => "Mar" | 4 => "Apr"
  | 5 => "May" | 6 => "Jun" | 7 => "Jul" | 8 => "Aug"
  | 9 => "Sep" | 10 => "Oct" | 11 => "Nov" | 12 => "Dec"
  | _ => ""

/-- The `seendate` reformatting of `generate_artical_data` (src/main.py
line 49): `strptime` with `%Y%m%dT%H%M%SZ` followed by `strftime` with
`%b %d, %Y %H:%M`; `none` when `strptime` raises. -/
def formatSeendate (s : String) : Option String :=
  (parseSeendate s).map (fun d =>
    monthAbbrev d.month ++ " " ++ pad2str d.day ++ ", " ++ pad4str d.year ++ " " ++
      pad2str d.hour ++ ":" ++ pad2str d.minute)

/-- A row of a fetched article table. -/
structure RawArticle where
  url : String
  title : String
  seendate : String
  domain : String
  language : String
  sourcecountry : String
deriving DecidableEq

/-- A normalized article row: tagged with its keyword and carrying the
reformatted `seendate`. -/
structure ArticleRow where
  keyword : String
  url : String
  title : String
  seendate : String
  domain : String
  language : String
  sourcecountry : String
deriving DecidableEq

/-- The per-keyword article normalization (src/main.py lines 47-49): tag
each row with the keyword, keep the fixed column set and reformat
`seendate`; the first row on which `strptime` raises aborts the whole
step with that row's raw `seendate` as the error. -/
def formatArticles (keyword : String) : List RawArticle → Except String (List ArticleRow)
  | [] => Except.ok []
  | a :: rest =>
      match formatSeendate a.seendate with
      | none => Except.error a.seendate
      | some d =>
          match formatArticles keyword rest with
          | Except.error e => Except.error e
          | Except.ok rows =>
              Except.ok
                (ArticleRow.mk keyword a.url a.title d a.domain a.language a.sourcecountry
                  :: rows)

/-- `generate_artical_data` (src/main.py lines 42-51): loop over the
keywords in order, skip empty fetches, normalize the rest and
concatenate; a `strptime` error is not caught anywhere and escapes to
the caller. -/
def generate_artical_data (fetchArts : String → List RawArticle) :
    List String → Except String (List ArticleRow)
  | [] => Except.ok []
  | kw :: rest =>
      let articles := fetchArts kw
      if articles.isEmpty then generate_artical_data fetchArts rest
      else
        match formatArticles kw articles with
        | Except.error e => Except.error e
        | Except.ok rows =>
            match generate_artical_data fetchArts rest with
            | Except.error e => Except.error e
            | Except.ok more => Except.ok (rows ++ more)

lemma processStep_eq (fetch : String → String → FetchResult) (kw : String)
    (acc : RawStore × SmStore) (tt : TimelineType) :
    processStep fetch kw acc tt =
      (acc.1 ++ (pairContrib fetch kw tt).1, acc.2 ++ (pairContrib fetch kw tt).2) := by
  unfold processStep pairContrib
  by_cases h : (fetchedTimeline fetch tt.search_api kw).isEmpty <;> simp [h]

lemma foldl_processStep (fetch : String → String → FetchResult) (kw : String) :
    ∀ (tts : List TimelineType) (acc : RawStore × SmStore),
      tts.foldl (processStep fetch kw) acc =
        (acc.1 ++ tts.flatMap (fun tt => (pairContrib fetch kw tt).1),
         acc.2 ++ tts.flatMap (fun tt => (pairContrib fetch kw tt).2)) := by
  intro tts
  induction tts with
  | nil => intro acc; simp
  | cons tt rest ih =>
      intro acc
      simp only [List.foldl_cons, List.flatMap_cons, ih, processStep_eq, List.append_assoc]

lemma foldl_process_outer (fetch : String → String → FetchResult) (tts : List TimelineType) :
    ∀ (kws : List String) (acc : RawStore × SmStore),
      kws.foldl (fun a kw => tts.foldl (processStep fetch kw) a) acc =
        (acc.1 ++ kws.flatMap (fun kw => tts.flatMap (fun tt => (pairContrib fetch kw tt).1)),
         acc.2 ++ kws.flatMap (fun kw => tts.flatMap (fun tt => (pairContrib fetch kw tt).2))) := by
  intro kws
  induction kws with
  | nil => intro acc; simp
  | cons kw rest ih =>
      intro acc
      have h1 : List.foldl (fun a k => List.foldl (processStep fetch k) a tts) acc (kw :: rest)
          = List.foldl (fun a k => List.foldl (processStep fetch k) a tts)
              (List.foldl (processStep fetch kw) acc tts) rest := rfl
      rw [h1, ih, foldl_processStep]
      simp [List.flatMap_cons, List.append_assoc]

lemma process_timeline_data_eq (kws : List String) (tts : List TimelineType)
    (fetch : String → String → FetchResult) :
    process_timeline_data kws tts fetch =
      (kws.flatMap (fun kw => tts.flatMap (fun tt => (pairContrib fetch kw tt).1)),
       kws.flatMap (fun kw => tts.flatMap (fun tt => (pairContrib fetch kw tt).2))) := by
  unfold process_timeline_data
  simp [foldl_process_outer]

lemma zipWith_getElem?_eq {α β γ : Type} (f : α → β → γ) (as : List α) (bs : List β)
    (i : Nat) (a : α) (b : β) (ha : as[i]? = some a) (hb : bs[i]? = some b) :
    (List.zipWith f as bs)[i]? = some (f a b) := by
  rw [List.getElem?_zipWith', ha, hb]
  rfl

lemma rollingCenteredMean_getElem? (W : Nat) (vals : List ℚ) (i : Nat)
    (h : i < vals.length) :
    (rollingCenteredMean W vals)[i]? = some (windowVal W vals i) := by
  unfold rollingCenteredMean
  rw [List.getElem?_map, List.getElem?_range h]
  rfl

lemma cma_value_getElem? (data : List Row) (W : Nat) (i : Nat) (h : i < data.length) :
    ((calculate_moving_average data W)[i]?).map SRow.value =
      some (windowVal W (data.map Row.value) i) := by
  have hlen : i < (data.map Row.value).length := by simpa using h
  have ha : data[i]? = some (data.get ⟨i, h⟩) := by
    rw [List.getElem?_eq_getElem h]
    rfl
  have hb := rollingCenteredMean_getElem? W (data.map Row.value) i hlen
  unfold calculate_moving_average
  rw [zipWith_getElem?_eq _ data _ i _ _ ha hb]
  rfl

/-- A 30-point series with all metric values `0`. -/
def zeros30 : List Row := (List.range 30).map (fun t => Row.mk t 0)

/-- A 30-point series with all metric values `1`. -/
def ones30 : List Row := (List.range 30).map (fun t => Row.mk t 1)

/-- A 40-point series with all metric values `0`. -/
def ex40 : List Row := (List.range 40).map (fun t => Row.mk t 0)

/-- C1 (counterexample): in a 30-point series the window `[i - 14, i + 15]`
claimed by the spec is fully available at `i = 14` (it is `[0, 29]`), yet
the smoothed value there is undefined (`none`), not the mean of the
window: pandas' even-window centering puts the extra point on the
leading side, so index `14` still lacks one leading point. -/
theorem C1_counterexample :
    ¬ ((calculate_moving_average zeros30 30)[14]?).map SRow.value =
        some (some ((((zeros30.map Row.value).drop 0).take 30).sum / (30 : ℚ))) := by
  decide

/-- C1 (amended): for every series and every index `i` at which the
30-point window `[i - 15, i + 14]` is fully available (`15 ≤ i` and
`i + 15 ≤ N`), the smoothed value at `i` equals the arithmetic mean of
the raw values at indices `i - 15` through `i + 14` inclusive — the
window of 30 is centered with the extra point on the leading side. -/
theorem C1_centered_mean (data : List Row) (i : Nat) (h1 : 15 ≤ i)
    (h2 : i + 15 ≤ data.length) :
    ((calculate_moving_average data 30)[i]?).map SRow.value =
      some (some ((((data.map Row.value).drop (i - 15)).take 30).sum / (30 : ℚ))) := by
  have hlt : i < data.length := by omega
  rw [cma_value_getElem? data 30 i hlt]
  have hlen : (data.map Row.value).length = data.length := by simp
  simp only [windowVal, hlen]
  have e1 : i + 1 + (30 - 1) / 2 = i + 15 := by norm_num
  rw [e1]
  have e2 : min (i + 15) data.length = i + 15 := Nat.min_eq_left h2
  rw [e2]
  have e3 : i + 15 - 30 = i - 15 := by omega
  rw [e3]
  have e4 : i + 15 - (i - 15) = 30 := by omega
  rw [e4]
  simp

/-- C1 (witness): the amended theorem applied to a concrete 30-point
series of ones at index 15. -/
theorem C1_centered_mean_witness :
    ((calculate_moving_average ones30 30)[15]?).map SRow.value =
      some (some ((((ones30.map Row.value).drop (15 - 15)).take 30).sum / (30 : ℚ))) :=
  C1_centered_mean ones30 15 (by decide) (by decide)

/-- C2 (counterexample): in a 40-point series the claim says position 14
is defined (claimed defined range 14-25), but the smoothed value at
position 14 is undefined. -/
theorem C2_counterexample :
    ((calculate_moving_average ex40 30)[14]?).map SRow.value = some none := by
  decide

/-- C2 (amended): for every raw series of length `N ≥ 30`, the smoothed
series is undefined exactly at the first 15 and the last 14 positions
(`i < 15` or `i ≥ N - 14`) and defined everywhere else; in particular
for a series of 40 points the smoothed values at positions 0-14 and
26-39 are undefined and positions 15-25 are defined. -/
theorem C2_undefined_range (data : List Row) (i : Nat) (h30 : 30 ≤ data.length)
    (hi : i < data.length) :
    (((calculate_moving_average data 30)[i]?).map SRow.value = some none ↔
      (i < 15 ∨ data.length - 14 ≤ i)) := by
  rw [cma_value_getElem? data 30 i hi]
  have hlen : (data.map Row.value).length = data.length := by simp
  simp only [windowVal, hlen]
  have e1 : i + 1 + (30 - 1) / 2 = i + 15 := by norm_num
  rw [e1]
  rcases Nat.le_total (i + 15) data.length with hle | hge
  · rw [Nat.min_eq_left hle]
    by_cases hc : i + 15 - (i + 15 - 30) = 30
    · rw [if_pos hc]
      simp only [Option.some.injEq]
      constructor
      · intro h; exact absurd h (by simp)
      · intro h; omega
    · rw [if_neg hc]
      simp only [true_iff]
      omega
  · rw [Nat.min_eq_right hge]
    by_cases hc : data.length - (i + 15 - 30) = 30
    · rw [if_pos hc]
      simp only [Option.some.injEq]
      constructor
      · intro h; exact absurd h (by simp)
      · intro h; omega
    · rw [if_neg hc]
      simp only [true_iff]
      omega

/-- C2 (witness): the amended theorem applied to the 40-point series at
the boundary position 14, which is undefined. -/
theorem C2_undefined_range_witness :
    (((calculate_moving_average ex40 30)[14]?).map SRow.value = some none ↔
      (14 < 15 ∨ ex40.length - 14 ≤ 14)) :=
  C2_undefined_range ex40 14 (by decide) (by decide)

lemma cma_length (data : List Row) (W : Nat) :
    (calculate_moving_average data W).length = data.length := by
  simp [calculate_moving_average, rollingCenteredMean]

lemma zipWith_mk_map_datetime :
    ∀ (as : List Row) (bs : List (Option ℚ)), as.length ≤ bs.length →
      (List.zipWith (fun r m => SRow.mk r.datetime m) as bs).map SRow.datetime =
        as.map Row.datetime := by
  intro as
  induction as with
  | nil => intro bs _; simp
  | cons a t ih =>
      intro bs h
      cases bs with
      | nil => simp at h
      | cons b bt =>
          have ht := ih bt (by simpa using h)
          simp only [List.zipWith_cons_cons, List.map_cons, ht]

lemma cma_map_datetime (data : List Row) (W : Nat) :
    (calculate_moving_average data W).map SRow.datetime = data.map Row.datetime := by
  unfold calculate_moving_average
  apply zipWith_mk_map_datetime
  simp [rollingCenteredMean]

lemma map_flatMap_congr {α β γ : Type} (g : β → γ) (F : α → List β) (G : α → List γ)
    (h : ∀ a, (F a).map g = G a) : ∀ l : List α, (l.flatMap F).map g = l.flatMap G := by
  intro l
  induction l with
  | nil => simp
  | cons a t ih => simp only [List.flatMap_cons, List.map_append, ih, h]

lemma pairContrib_snd_eq (fetch : String → String → FetchResult) (kw : String)
    (tt : TimelineType) :
    ((pairContrib fetch kw tt).1).map
        (fun e => (e.1, calculate_moving_average e.2 30)) =
      (pairContrib fetch kw tt).2 := by
  unfold pairContrib
  by_cases h : (fetchedTimeline fetch tt.search_api kw).isEmpty <;> simp [h]

lemma process_smoothed_eq_map (kws : List String) (tts : List TimelineType)
    (fetch : String → String → FetchResult) :
    (process_timeline_data kws tts fetch).2 =
      (process_timeline_data kws tts fetch).1.map
        (fun e => (e.1, calculate_moving_average e.2 30)) := by
  rw [process_timeline_data_eq]
  exact (map_flatMap_congr _ _ _
    (fun kw => map_flatMap_congr _ _ _ (fun tt => pairContrib_snd_eq fetch kw tt) tts) kws).symm

/-- C3: smoothing changes only the metric value column — for every series
the smoothed result has the same length and the same `datetime` column as
its input, and in every run of the timeline processing the raw store
keeps the pre-smoothing series unchanged: the smoothed store is exactly
the raw store with `calculate_moving_average` applied to the values. -/
theorem C3_smoothing_frame :
    (∀ data : List Row, (calculate_moving_average data 30).length = data.length) ∧
    (∀ data : List Row,
      (calculate_moving_average data 30).map SRow.datetime = data.map Row.datetime) ∧
    (∀ (kws : List String) (tts : List TimelineType)
        (fetch : String → String → FetchResult),
      (process_timeline_data kws tts fetch).2 =
        (process_timeline_data kws tts fetch).1.map
          (fun e => (e.1, calculate_moving_average e.2 30))) :=
  ⟨fun data => cma_length data 30,
   fun data => cma_map_datetime data 30,
   process_smoothed_eq_map⟩

/-- C10: after any run of the timeline processing, the raw store and the
smoothed store hold exactly the same keys in the same order, because the
two entries are inserted together for each non-empty fetch. -/
theorem C10_key_sets_align (kws : List String) (tts : List TimelineType)
    (fetch : String → String → FetchResult) :
    storeKeys (process_timeline_data kws tts fetch).1 =
      storeKeys (process_timeline_data kws tts fetch).2 := by
  rw [process_smoothed_eq_map]
  simp [storeKeys, List.map_map, Function.comp]

lemma pairContrib_key_mem (fetch : String → String → FetchResult) (kw : String)
    (tt : TimelineType) (key : String)
    (h : key ∈ storeKeys (pairContrib fetch kw tt).1 ∨
         key ∈ storeKeys (pairContrib fetch kw tt).2) :
    key = tt.search_api ++ ":" ++ kw ∧ fetchedTimeline fetch tt.search_api kw ≠ [] := by
  unfold pairContrib storeKeys at h
  by_cases hemp : (fetchedTimeline fetch tt.search_api kw).isEmpty
  · simp [hemp] at h
  · simp only [if_neg hemp, List.map_cons, List.map_nil, List.mem_singleton] at h
    have hne : fetchedTimeline fetch tt.search_api kw ≠ [] := by
      intro hnil
      exact hemp (by simp [hnil])
    rcases h with h | h <;> exact ⟨h, hne⟩

lemma not_mem_keys_of_matching_empty (kws : List String) (tts : List TimelineType)
    (fetch : String → String → FetchResult) (key : String)
    (h : ∀ kw ∈ kws, ∀ tt ∈ tts, tt.search_api ++ ":" ++ kw = key →
        fetchedTimeline fetch tt.search_api kw = []) :
    key ∉ storeKeys (process_timeline_data kws tts fetch).1 ∧
    key ∉ storeKeys (process_timeline_data kws tts fetch).2 := by
  rw [process_timeline_data_eq]
  constructor
  · intro hmem
    simp only [storeKeys, List.map_flatMap] at hmem
    rw [List.mem_flatMap] at hmem
    obtain ⟨kw, hkw, hmem2⟩ := hmem
    rw [List.mem_flatMap] at hmem2
    obtain ⟨tt, htt, hmem3⟩ := hmem2
    obtain ⟨hk, hne⟩ := pairContrib_key_mem fetch kw tt key (Or.inl hmem3)
    exact hne (h kw hkw tt htt hk.symm)
  · intro hmem
    simp only [storeKeys, List.map_flatMap] at hmem
    rw [List.mem_flatMap] at hmem
    obtain ⟨kw, hkw, hmem2⟩ := hmem
    rw [List.mem_flatMap] at hmem2
    obtain ⟨tt, htt, hmem3⟩ := hmem2
    obtain ⟨hk, hne⟩ := pairContrib_key_mem fetch kw tt key (Or.inr hmem3)
    exact hne (h kw hkw tt htt hk.symm)

/-- A fetch oracle for the three-keyword partial-failure scenario: every
fetch for keyword `k2` raises, every other fetch returns one row. -/
def fetchC4 : String → String → FetchResult :=
  fun _api kw => if kw = "k2" then FetchResult.err else FetchResult.ok [Row.mk 0 1]

/-- C4: a fetch error for a (timeline type, keyword) pair is caught and
the pair contributes no entry to either store (first conjunct: if every
pair whose composite key is `key` errors, `key` is absent from both
stores), and processing continues with the remaining pairs: in the
three-keyword run where every fetch for the second keyword raises and
the others succeed with non-empty data, both stores hold exactly the six
entries of the two successful keywords, so the run did not abort. -/
theorem C4_partial_failure :
    (∀ (kws : List String) (tts : List TimelineType)
        (fetch : String → String → FetchResult) (key : String),
      (∀ kw ∈ kws, ∀ tt ∈ tts, tt.search_api ++ ":" ++ kw = key →
          fetch tt.search_api kw = FetchResult.err) →
      key ∉ storeKeys (process_timeline_data kws tts fetch).1 ∧
      key ∉ storeKeys (process_timeline_data kws tts fetch).2) ∧
    storeKeys (process_timeline_data ["k1", "k2", "k3"] timeline_types fetchC4).1 =
      ["timelinetone:k1", "timelinevol:k1", "timelinevolraw:k1",
       "timelinetone:k3", "timelinevol:k3", "timelinevolraw:k3"] ∧
    storeKeys (process_timeline_data ["k1", "k2", "k3"] timeline_types fetchC4).2 =
      ["timelinetone:k1", "timelinevol:k1", "timelinevolraw:k1",
       "timelinetone:k3", "timelinevol:k3", "timelinevolraw:k3"] := by
  refine ⟨?_, by decide, by decide⟩
  intro kws tts fetch key h
  apply not_mem_keys_of_matching_empty
  intro kw hkw tt htt hkey
  simp [fetchedTimeline, h kw hkw tt htt hkey]

/-- C4 (witness): the erroring keyword `k2` of the concrete scenario is
absent from both stores. -/
theorem C4_partial_failure_witness :
    "timelinetone:k2" ∉
        storeKeys (process_timeline_data ["k1", "k2", "k3"] timeline_types fetchC4).1 ∧
    "timelinetone:k2" ∉
        storeKeys (process_timeline_data ["k1", "k2", "k3"] timeline_types fetchC4).2 :=
  C4_partial_failure.1 ["k1", "k2", "k3"] timeline_types fetchC4 "timelinetone:k2"
    (by decide)

/-- A fetch oracle where every fetch for keyword `k2` returns an empty
table and every other fetch returns one row. -/
def fetchC5 : String → String → FetchResult :=
  fun _api kw => if kw = "k2" then FetchResult.ok [] else FetchResult.ok [Row.mk 0 1]

/-- C5: if the fetched time series for a pair is empty, that pair is
absent from both the raw store and the smoothed store; no error is
raised for it (the processing function is total and simply skips the
pair). -/
theorem C5_empty_skipped (kws : List String) (tts : List TimelineType)
    (fetch : String → String → FetchResult) (key : String)
    (h : ∀ kw ∈ kws, ∀ tt ∈ tts, tt.search_api ++ ":" ++ kw = key →
        fetch tt.search_api kw = FetchResult.ok []) :
    key ∉ storeKeys (process_timeline_data kws tts fetch).1 ∧
    key ∉ storeKeys (process_timeline_data kws tts fetch).2 := by
  apply not_mem_keys_of_matching_empty
  intro kw hkw tt htt hkey
  simp [fetchedTimeline, h kw hkw tt htt hkey]

/-- C5 (witness): in a three-keyword run where every fetch for `k2`
returns an empty table, `k2` is absent from both stores. -/
theorem C5_empty_skipped_witness :
    "timelinetone:k2" ∉
        storeKeys (process_timeline_data ["k1", "k2", "k3"] timeline_types fetchC5).1 ∧
    "timelinetone:k2" ∉
        storeKeys (process_timeline_data ["k1", "k2", "k3"] timeline_types fetchC5).2 :=
  C5_empty_skipped ["k1", "k2", "k3"] timeline_types fetchC5 "timelinetone:k2"
    (by decide)

/-- A fetch oracle returning the same unsorted two-row table for every
pair. -/
def fetchC9 : String → String → FetchResult :=
  fun _api _kw => FetchResult.ok [Row.mk 5 1, Row.mk 3 2]

/-- Strict ordering of timeline rows by the `datetime` column. -/
def timeLT (a b : Row) : Prop := a.datetime < b.datetime

instance : DecidableRel timeLT := fun a b => Nat.decLt a.datetime b.datetime

instance : IsAntisymm Row timeLT :=
  ⟨fun _ _ h h2 => absurd (Nat.lt_trans h h2) (Nat.lt_irrefl _)⟩

/-- A series with strictly increasing timestamps: sorted and free of
duplicate timestamps. -/
def timesStrictSorted (l : List Row) : Prop := List.Sorted timeLT l

instance (l : List Row) : Decidable (timesStrictSorted l) :=
  inferInstanceAs (Decidable (List.Pairwise timeLT l))

/-- Everything pandas documents for `sort_values` with its default
`kind=\'quicksort\'`: the output is sorted by the key column and is a
permutation of the input rows.  Stability — preservation of the relative
order of rows with equal keys — is documented as not guaranteed for
quicksort, so it is deliberately absent from this contract; `sortByTime`
is one implementation of the contract, the program\'s unstable quicksort
is another. -/
def sortContract (f : List Row → List Row) : Prop :=
  ∀ l : List Row, timesSorted (f l) ∧ List.Perm (f l) l

lemma sortByTime_contract : sortContract sortByTime :=
  fun l => ⟨List.sorted_insertionSort timeLE l, List.perm_insertionSort timeLE l⟩

lemma sortContract_fixed (f : List Row → List Row) (hf : sortContract f)
    (l : List Row) (hl : timesStrictSorted l) : f l = l := by
  obtain ⟨hs, hp⟩ := hf l
  have hne : l.Pairwise (fun a b => a.datetime ≠ b.datetime) :=
    hl.imp (fun h => Nat.ne_of_lt h)
  have hnodup : (l.map Row.datetime).Nodup := List.pairwise_map.mpr hne
  have hnodup2 : ((f l).map Row.datetime).Nodup := (hp.map Row.datetime).symm.nodup hnodup
  have hne2 : (f l).Pairwise (fun a b => a.datetime ≠ b.datetime) :=
    List.pairwise_map.mp hnodup2
  have hstrict2 : timesStrictSorted (f l) :=
    (hs.and hne2).imp (fun h => Nat.lt_of_le_of_ne h.1 h.2)
  exact List.eq_of_perm_of_sorted hp hstrict2 hl

/-- A sort that meets `sortContract` but is not stable: on one
particular already-sorted input with a duplicated timestamp it swaps the
two tied rows (as an unstable quicksort may), and elsewhere it behaves
like the insertion sort. -/
def unstableSort (l : List Row) : List Row :=
  if l = [Row.mk 0 1, Row.mk 0 2] then [Row.mk 0 2, Row.mk 0 1] else sortByTime l

/-- C9 (counterexample): the claimed idempotence is a stability
guarantee the program does not have.  `sort_values` with the default
`kind=\'quicksort\'` only promises a sorted permutation of the rows —
pandas documents quicksort as not stable — and here is a sort meeting
that full guarantee together with an already-sorted two-row series with
tied timestamps on which it is not the identity. -/
theorem C9_counterexample :
    sortContract unstableSort ∧
    timesSorted [Row.mk 0 1, Row.mk 0 2] ∧
    unstableSort [Row.mk 0 1, Row.mk 0 2] ≠ [Row.mk 0 1, Row.mk 0 2] := by
  refine ⟨?_, by decide, by decide⟩
  intro l
  unfold unstableSort
  by_cases h : l = [Row.mk 0 1, Row.mk 0 2]
  · subst h
    rw [if_pos rfl]
    exact ⟨by decide, by decide⟩
  · rw [if_neg h]
    exact sortByTime_contract l

/-- C9 (amended): every fetched non-empty series is sorted ascending by
timestamp before it is stored or smoothed (first conjunct: every entry
of the raw store is sorted by the `datetime` column), and on series with
strictly increasing — duplicate-free — timestamps the sort is
idempotent in a way independent of tie-breaking: every sort meeting the
documented `sort_values` guarantee maps an already-sorted duplicate-free
series to itself. -/
theorem C9_sort_step :
    (∀ (kws : List String) (tts : List TimelineType)
        (fetch : String → String → FetchResult) (key : String) (s : List Row),
      (key, s) ∈ (process_timeline_data kws tts fetch).1 → timesSorted s) ∧
    (∀ f : List Row → List Row, sortContract f →
      ∀ l : List Row, timesStrictSorted l → f l = l) := by
  constructor
  · intro kws tts fetch key s hmem
    rw [process_timeline_data_eq] at hmem
    rw [List.mem_flatMap] at hmem
    obtain ⟨kw, _, hmem2⟩ := hmem
    rw [List.mem_flatMap] at hmem2
    obtain ⟨tt, _, hmem3⟩ := hmem2
    revert hmem3
    unfold pairContrib
    by_cases hemp : (fetchedTimeline fetch tt.search_api kw).isEmpty
    · simp [hemp]
    · simp only [if_neg hemp, List.mem_singleton, Prod.mk.injEq]
      intro hmem3
      rw [hmem3.2]
      exact List.sorted_insertionSort timeLE (fetchedTimeline fetch tt.search_api kw)
  · exact sortContract_fixed

/-- C9 (witness): the theorem applied to a concrete run (the stored
series for one key of `fetchC9` is the sorted `[3, 5]` table) and to
`sortByTime` itself on a concrete strictly-sorted series. -/
theorem C9_sort_step_witness :
    timesSorted [Row.mk 3 2, Row.mk 5 1] ∧
    sortByTime [Row.mk 3 2, Row.mk 5 1] = [Row.mk 3 2, Row.mk 5 1] :=
  ⟨C9_sort_step.1 ["k1"] timeline_types fetchC9 "timelinetone:k1"
      [Row.mk 3 2, Row.mk 5 1] (by decide),
   C9_sort_step.2 sortByTime sortByTime_contract [Row.mk 3 2, Row.mk 5 1] (by decide)⟩

lemma splitCommaAux_no_comma :
    ∀ (l cur : List Char), ',' ∉ l → splitCommaAux l cur = [cur.reverse ++ l] := by
  intro l
  induction l with
  | nil => intro cur _; simp [splitCommaAux]
  | cons c rest ih =>
      intro cur h
      have hc : ¬ c = ',' := fun e => h (by simp [e])
      simp only [splitCommaAux, if_neg hc]
      rw [ih (c :: cur) (fun hm => h (List.mem_cons_of_mem c hm))]
      simp

lemma splitCommaAux_length_pos :
    ∀ (l cur : List Char), 1 ≤ (splitCommaAux l cur).length := by
  intro l
  induction l with
  | nil => intro cur; simp [splitCommaAux]
  | cons c rest ih =>
      intro cur
      by_cases hc : c = ','
      · simp [splitCommaAux, hc]
      · simp only [splitCommaAux, if_neg hc]
        exact ih (c :: cur)

lemma splitCommaAux_comma_length :
    ∀ (l cur : List Char), ',' ∈ l → 2 ≤ (splitCommaAux l cur).length := by
  intro l
  induction l with
  | nil => intro cur h; simp at h
  | cons c rest ih =>
      intro cur h
      by_cases hc : c = ','
      · simp only [splitCommaAux, if_pos hc, List.length_cons]
        have := splitCommaAux_length_pos rest []
        omega
      · have hrest : ',' ∈ rest := by
          rcases List.mem_cons.mp h with h1 | h2
          · exact absurd h1.symm hc
          · exact h2
        simp only [splitCommaAux, if_neg hc]
        exact ih (c :: cur) hrest

/-- C6: the domain (and country) field is split on commas with the rule
of the search handler: a non-empty input containing no comma yields the
trimmed whole string as a scalar, not a one-element collection; an input
containing a comma yields the list of trimmed parts; the empty string
yields an empty collection.  The spec's three examples are included. -/
theorem C6_domain_split_rule :
    (∀ s : String, s ≠ "" → ',' ∉ s.toList →
        parseDomainField s = DomainsVal.scalar (pyStrip s)) ∧
    (∀ s : String, ',' ∈ s.toList →
        parseDomainField s = DomainsVal.listVal ((pySplitComma s).map pyStrip)) ∧
    parseDomainField "" = DomainsVal.listVal [] ∧
    parseDomainField "bbc.co.uk" = DomainsVal.scalar "bbc.co.uk" ∧
    parseDomainField "bbc.co.uk,nytimes.com" =
      DomainsVal.listVal ["bbc.co.uk", "nytimes.com"] := by
  refine ⟨?_, ?_, by decide, by decide, by decide⟩
  · intro s hne hnoc
    have h1 : pySplitComma s = [String.mk s.toList] := by
      unfold pySplitComma
      rw [splitCommaAux_no_comma s.toList [] hnoc]
      simp
    unfold parseDomainField
    rw [h1]
    simp [hne]
  · intro s hc
    have h2 : 2 ≤ (pySplitComma s).length := by
      unfold pySplitComma
      simpa using splitCommaAux_comma_length s.toList [] hc
    have hne : s ≠ "" := by
      intro he
      subst he
      simp at hc
    unfold parseDomainField
    rw [if_neg (by omega)]
    simp [hne]

/-- C6 (witness): a comma-free non-empty input yields the trimmed scalar. -/
theorem C6_domain_split_rule_witness :
    parseDomainField " bbc.co.uk " = DomainsVal.scalar (pyStrip " bbc.co.uk ") :=
  C6_domain_split_rule.1 " bbc.co.uk " (by decide) (by decide)

lemma formatSeendate_none_of_parse_none (s : String)
    (h : parseSeendate s = none) : formatSeendate s = none := by
  unfold formatSeendate
  rw [h]
  rfl

lemma formatArticles_error (keyword : String) :
    ∀ (arts : List RawArticle) (a : RawArticle), a ∈ arts →
      formatSeendate a.seendate = none →
      ∃ msg, formatArticles keyword arts = Except.error msg := by
  intro arts
  induction arts with
  | nil => intro a ha _; exact absurd ha (List.not_mem_nil a)
  | cons b t ih =>
      intro a ha hbad
      rcases List.mem_cons.mp ha with rfl | hat
      · exact ⟨a.seendate, by unfold formatArticles; rw [hbad]⟩
      · cases hfb : formatSeendate b.seendate with
        | none => exact ⟨b.seendate, by unfold formatArticles; rw [hfb]⟩
        | some d =>
            obtain ⟨msg, hmsg⟩ := ih a hat hbad
            exact ⟨msg, by unfold formatArticles; rw [hfb, hmsg]⟩

/-- C7 (counterexample): the raw `seendate` string `"20200510t153000Z"`
violates the fixed pattern the claim states (its `t` is lower case), yet
`strptime` — whose format regex is compiled with `IGNORECASE` — accepts
it, so the article-normalization step completes without any error
instead of aborting: the claim's pattern is strictly narrower than the
set of strings the program actually rejects. -/
theorem C7_counterexample :
    matchesSeendatePat "20200510t153000Z" = false ∧
    generate_artical_data
        (fun _ => [RawArticle.mk "u" "ti" "20200510t153000Z" "d" "l" "c"]) ["k1"] =
      Except.ok [ArticleRow.mk "k1" "u" "ti" "May 10, 2020 15:30" "d" "l" "c"] := by
  constructor <;> rfl

/-- C7 (amended): an article row whose raw `seendate` string is rejected
by `datetime.strptime` for the format `%Y%m%dT%H%M%SZ` (the pattern is
matched case-insensitively, month, day, hour, minute and second may also
be a single digit, and the parsed fields must form a valid `datetime` —
`parseSeendate` returning `none`) makes the article-normalization step
return an error that nothing catches: the whole search's article
generation aborts instead of skipping the row. -/
theorem C7_malformed_seendate_aborts (keywords : List String)
    (fetchArts : String → List RawArticle) (kw : String) (a : RawArticle)
    (hkw : kw ∈ keywords) (ha : a ∈ fetchArts kw)
    (hbad : parseSeendate a.seendate = none) :
    ∃ msg, generate_artical_data fetchArts keywords = Except.error msg := by
  induction keywords with
  | nil => exact absurd hkw (List.not_mem_nil kw)
  | cons k rest ih =>
      rcases List.mem_cons.mp hkw with rfl | hk
      · have hne : (fetchArts kw).isEmpty = false := by
          cases hfa : fetchArts kw with
          | nil => rw [hfa] at ha; exact absurd ha (List.not_mem_nil a)
          | cons x xs => rfl
        obtain ⟨msg, hmsg⟩ := formatArticles_error kw (fetchArts kw) a ha
          (formatSeendate_none_of_parse_none a.seendate hbad)
        exact ⟨msg, by unfold generate_artical_data; simp [hne, hmsg]⟩
      · obtain ⟨msg, hmsg⟩ := ih hk
        by_cases hne : (fetchArts k).isEmpty
        · exact ⟨msg, by unfold generate_artical_data; simp [hne, hmsg]⟩
        · cases hfk : formatArticles k (fetchArts k) with
          | error e =>
              exact ⟨e, by unfold generate_artical_data; simp [hne, hfk]⟩
          | ok rows =>
              exact ⟨msg, by unfold generate_artical_data; simp [hne, hfk, hmsg]⟩

/-- C7 (witness): one keyword whose fetch returns a single row whose
`seendate` `"20200230T120000Z"` passes the format regex but is rejected
by the `datetime` constructor (February 30) makes the whole article
generation return an error. -/
theorem C7_malformed_seendate_aborts_witness :
    ∃ msg, generate_artical_data
        (fun _ => [RawArticle.mk "u" "ti" "20200230T120000Z" "d" "l" "c"]) ["k1"] =
      Except.error msg :=
  C7_malformed_seendate_aborts ["k1"]
    (fun _ => [RawArticle.mk "u" "ti" "20200230T120000Z" "d" "l" "c"]) "k1"
    (RawArticle.mk "u" "ti" "20200230T120000Z" "d" "l" "c")
    (by decide) (by decide) (by decide)

/-- C8: the article timestamp reformatting maps a well-formed
`YYYYMMDDTHHMMSSZ` input to the `Mon DD, YYYY HH:MM` display form; in
particular `"20200510T153000Z"` formats to `"May 10, 2020 15:30"` (and,
as a second instance exercising zero padding and another month,
`"20210102T050907Z"` formats to `"Jan 02, 2021 05:09"`). -/
theorem C8_timestamp_format :
    formatSeendate "20200510T153000Z" = some "May 10, 2020 15:30" ∧
    formatSeendate "20210102T050907Z" = some "Jan 02, 2021 05:09" := by
  constructor <;> rfl
